import Mathlib

/-!
Verification of the document classification pipeline
(`src/services/categorizeService.js`).

The pipeline is embedded shallowly:

* JavaScript strings become Lean `String`s; `String.prototype.includes`
  becomes `strIncludes`; `toLowerCase` becomes `strToLower`.
* The two external effects of `getStructuredAIAnalysis` — the generative-AI
  network call and the library call `JSON.parse` — are modelled by an
  oracle `AIEnv`: `outcome` is the raw model response (`none` models any
  thrown error: network failure, timeout, missing credentials), and
  `jsonParse` models `JSON.parse` on the regex-extracted substring
  (`none` models a parse exception).  Everything else is translated
  directly from the source.
* The greedy regex `/\x7b[\s\S]*\x7d/` used by the source is embedded as
  `jsonSpanMatch`: the substring from the first `{` to the last `}`.
-/

/-- JavaScript `hay.includes(needle)` : substring test on lists of chars. -/
def listContainsSub (needle : List Char) : List Char → Bool
  | [] => needle.isEmpty
  | h :: t => needle.isPrefixOf (h :: t) || listContainsSub needle t

/-- JavaScript `s.includes(sub)`. -/
def strIncludes (s sub : String) : Bool :=
  listContainsSub sub.data s.data

/-- JavaScript `s.toLowerCase()` (ASCII case folding, which is all the
source's keyword tables need); written by structural recursion on the
character list so that it evaluates inside the kernel. -/
def strToLower (s : String) : String :=
  String.mk (s.data.map Char.toLower)

/-- JavaScript `text.split(' ')`: split at every single space character,
keeping empty pieces (structural recursion, kernel-evaluable). -/
def splitSpaces : List Char → List (List Char)
  | [] => [[]]
  | c :: rest =>
      match splitSpaces rest with
      | [] => [[]]
      | w :: ws => if c = ' ' then [] :: (w :: ws) else (c :: w) :: ws

/-- JavaScript truthiness fallback `x || d` for a possibly-absent string
(`undefined`/`null` ↦ `none`; the empty string is falsy). -/
def jsOr (x : Option String) (d : String) : String :=
  match x with
  | none => d
  | some s => if s = "" then d else s

/-- The result shape returned by `getStructuredAIAnalysis`
(`{category, priority, summary}`). -/
structure AIResult where
  category : String
  priority : String
  summary : String
deriving DecidableEq, Repr

/-- The result shape returned by the pipeline
(`{category, priority, analysis}`). -/
structure ClassificationResult where
  category : String
  priority : String
  analysis : String
deriving DecidableEq, Repr

/-- The three fields the source reads off the object produced by
`JSON.parse` (each may be absent). -/
structure ParsedJson where
  category : Option String
  priority : Option String
  summary : Option String
deriving DecidableEq, Repr

/-- Oracle for the two external calls made by `getStructuredAIAnalysis`:
the AI network call (`outcome`; `none` = the call threw) and `JSON.parse`
(`jsonParse`; `none` = parse exception). -/
structure AIEnv where
  outcome : Option String
  jsonParse : String → Option ParsedJson

/-- The 8-value category enumeration of the spec. -/
def categoryLabels : List String :=
  ["Engineering", "Finance", "Procurement", "HR", "Legal", "Safety",
   "Regulatory", "Other"]

/-- The 3-value priority enumeration of the spec. -/
def priorityLabels : List String := ["High", "Medium", "Low"]

/-- Index of the first occurrence of `c`, counting from `i`
(source: position of the first brace matched by the regex). -/
def firstIdxFrom (c : Char) : List Char → Nat → Option Nat
  | [], _ => none
  | h :: t, i => if h = c then some i else firstIdxFrom c t (i + 1)

/-- Index of the last occurrence of `c`, counting from `i`
(source: the greedy regex ends at the last closing brace). -/
def lastIdxFrom (c : Char) : List Char → Nat → Option Nat → Option Nat
  | [], _, acc => acc
  | h :: t, i, acc => lastIdxFrom c t (i + 1) (if h = c then some i else acc)

/-- Embedding of `response.match(/\x7b[\s\S]*\x7d/)` from
`getStructuredAIAnalysis`: the regex is greedy, so a match (when one
exists) runs from the first `{` of the response to the last `}`. -/
def jsonSpanMatch (response : String) : Option String :=
  match firstIdxFrom '{' response.data 0, lastIdxFrom '}' response.data 0 none with
  | some i, some j =>
      if i < j then some (String.mk ((response.data.drop i).take (j + 1 - i)))
      else none
  | some _, none => none
  | none, _ => none

/-- Modelled from the spec: §4.2 says the adapter extracts "the first
balanced JSON object substring" of the model's raw output.  The source
has no such routine (it uses the greedy regex embedded as
`jsonSpanMatch`); this definition follows the spec's words — scan from
the first `{`, tracking brace depth, and stop at the brace that closes
it — purely for comparison against `jsonSpanMatch`. -/
def takeBalanced : List Char → Nat → Option (List Char)
  | [], _ => none
  | ch :: rest, depth =>
      if ch = '{' then Option.map (fun l => ch :: l) (takeBalanced rest (depth + 1))
      else if ch = '}' then
        if depth = 1 then some [ch]
        else Option.map (fun l => ch :: l) (takeBalanced rest (depth - 1))
      else Option.map (fun l => ch :: l) (takeBalanced rest depth)

/-- Modelled from the spec (see `takeBalanced`): the first balanced JSON
object substring of the response. -/
def specFirstBalancedSpan (response : String) : Option String :=
  match firstIdxFrom '{' response.data 0 with
  | none => none
  | some i => Option.map String.mk (takeBalanced (response.data.drop i) 0)

/-- Source line 141: the generic word-count fallback summary. -/
def genericSummary (textContent : String) : String :=
  "Document contains " ++ toString (splitSpaces textContent.data).length ++
    " words and has been processed for review."

/-- Source lines 138-142: the fixed fallback triple returned when the AI
call or the JSON extraction fails. -/
def aiFallbackResult (textContent : String) : AIResult :=
  { category := "Other", priority := "Low", summary := genericSummary textContent }

/-- Source lines 127-131: field-level defaulting applied to the parsed
JSON object (JavaScript `parsedResult.category || 'Other'` etc.). -/
def parsedFieldDefaults (parsedResult : ParsedJson) : AIResult :=
  { category := jsOr parsedResult.category "Other",
    priority := jsOr parsedResult.priority "Low",
    summary := jsOr parsedResult.summary "Document processed for categorization." }

/-- Source lines 92-143, `getStructuredAIAnalysis`: run the AI call (via
the oracle), extract the greedy brace span, parse it, apply field
defaults; every failure path degrades to `aiFallbackResult`. -/
def getStructuredAIAnalysis (env : AIEnv) (textContent : String)
    (_fileName : String) : AIResult :=
  match env.outcome with
  | none => aiFallbackResult textContent
  | some response =>
      match jsonSpanMatch response with
      | none => aiFallbackResult textContent
      | some matched =>
          match env.jsonParse matched with
          | none => aiFallbackResult textContent
          | some parsedResult => parsedFieldDefaults parsedResult

/-- Source lines 150-158: the validator's category keyword table. -/
def categoryKeywords : List (String × List String) :=
  [("Engineering", ["maintenance", "repair", "technical", "equipment",
      "infrastructure", "construction", "mechanical", "electrical", "system"]),
   ("Finance", ["budget", "payment", "invoice", "expense", "cost", "revenue",
      "financial", "accounting"]),
   ("Procurement", ["purchase", "vendor", "supplier", "tender", "quotation",
      "contract award", "rfp", "procurement"]),
   ("HR", ["employee", "staff", "personnel", "recruitment", "training",
      "leave", "human resource", "hr"]),
   ("Legal", ["legal", "contract", "agreement", "compliance", "regulation",
      "law", "litigation", "audit"]),
   ("Safety", ["safety", "security", "emergency", "incident", "accident",
      "hazard", "risk", "protocol"]),
   ("Regulatory", ["regulatory", "government", "ministry", "policy",
      "circular", "notification", "directive", "guideline"])]

/-- Source lines 165-167: number of keywords of one category matching the
lowercased text or the lowercased filename. -/
def validatorCount (textContent fileName : String) (keywords : List String) : Nat :=
  (keywords.filter (fun keyword =>
    strIncludes (strToLower textContent) keyword || strIncludes (strToLower fileName) keyword)).length

/-- Source lines 164-173: the validator loop over the category table,
carrying `(bestCategory, maxMatches)`; an entry replaces the current best
only when `matches > maxMatches && matches >= 2`. -/
def overrideLoop (count : List String → Nat) :
    List (String × List String) → String × Nat → String × Nat
  | [], best => best
  | (category, keywords) :: rest, (bestCategory, maxMatches) =>
      let matchCount := count keywords
      if maxMatches < matchCount ∧ 2 ≤ matchCount then
        overrideLoop count rest (category, matchCount)
      else
        overrideLoop count rest (bestCategory, maxMatches)

/-- Source lines 145-180, `validateAndOverrideCategories`. -/
def validateAndOverrideCategories (textContent fileName : String)
    (aiResult : AIResult) : ClassificationResult :=
  { category :=
      (overrideLoop (validatorCount textContent fileName) categoryKeywords
        (aiResult.category, 0)).1,
    priority := aiResult.priority,
    analysis := aiResult.summary }

/-- Source lines 186-189: high-priority trigger keywords. -/
def highPriorityKeywords : List String :=
  ["urgent", "immediate", "emergency", "critical", "deadline", "asap",
   "action required", "time sensitive", "priority", "escalate"]

/-- Source lines 192-195: medium-priority trigger keywords. -/
def mediumPriorityKeywords : List String :=
  ["important", "attention", "review required", "follow up", "notice",
   "update", "reminder", "please note"]

/-- Source lines 182-211, `getRuleBasedPriority`.  The second argument is
`Option String` because in JavaScript the AI suggestion may be absent
(`aiPriority || 'Low'`). -/
def getRuleBasedPriority (textContent : String) (aiPriority : Option String) : String :=
  if highPriorityKeywords.any (fun keyword => strIncludes (strToLower textContent) keyword) then
    "High"
  else if mediumPriorityKeywords.any (fun keyword => strIncludes (strToLower textContent) keyword) then
    "Medium"
  else
    jsOr aiPriority "Low"

/-- Source lines 44-52: the filename analyzer's category keyword table
(near-duplicate of `categoryKeywords`, with extra generic terms). -/
def filenameCategories : List (String × List String) :=
  [("Engineering", ["maintenance", "repair", "technical", "equipment",
      "infrastructure", "construction", "mech", "elect", "system", "work",
      "project"]),
   ("Finance", ["budget", "payment", "invoice", "expense", "cost", "revenue",
      "financial", "account", "bill", "fund"]),
   ("Procurement", ["purchase", "vendor", "supplier", "tender", "quotation",
      "contract", "rfp", "procurement", "order"]),
   ("HR", ["employee", "staff", "personnel", "recruitment", "training",
      "leave", "hr", "attendance", "salary"]),
   ("Legal", ["legal", "contract", "agreement", "compliance", "regulation",
      "law", "audit", "policy"]),
   ("Safety", ["safety", "security", "emergency", "incident", "accident",
      "hazard", "risk", "circular", "alert"]),
   ("Regulatory", ["regulatory", "government", "ministry", "notification",
      "directive", "guideline", "rule", "standard"])]

/-- Source line 55: high-priority keywords looked for in the filename. -/
def filenameHighPriorityKeywords : List String :=
  ["urgent", "immediate", "emergency", "critical", "asap"]

/-- Source line 56: medium-priority keywords looked for in the filename. -/
def filenameMediumPriorityKeywords : List String :=
  ["important", "attention", "notice", "reminder"]

/-- Source line 63: number of keywords of one category matching the
lowercased filename. -/
def filenameCount (lowerFileName : String) (keywords : List String) : Nat :=
  (keywords.filter (fun keyword => strIncludes lowerFileName keyword)).length

/-- Source lines 58-68: the filename analyzer's best-category loop,
carrying `(detectedCategory, maxMatches)`; an entry replaces the current
best when `matches > maxMatches`. -/
def filenameLoop (count : List String → Nat) :
    List (String × List String) → String × Nat → String × Nat
  | [], best => best
  | (category, keywords) :: rest, (detectedCategory, maxMatches) =>
      let matchCount := count keywords
      if maxMatches < matchCount then
        filenameLoop count rest (category, matchCount)
      else
        filenameLoop count rest (detectedCategory, maxMatches)

/-- The `(detectedCategory, maxMatches)` pair computed by
`analyzeFromFilename` (source lines 58-68), starting from `("Other", 0)`. -/
def filenameBest (fileName : String) : String × Nat :=
  filenameLoop (filenameCount (strToLower fileName)) filenameCategories ("Other", 0)

/-- Source lines 39-90, `analyzeFromFilename`. -/
def analyzeFromFilename (fileName : String) : ClassificationResult :=
  { category := (filenameBest fileName).1,
    priority :=
      if filenameHighPriorityKeywords.any
          (fun kw => strIncludes (strToLower fileName) kw) then "High"
      else if filenameMediumPriorityKeywords.any
          (fun kw => strIncludes (strToLower fileName) kw)
          || decide (0 < (filenameBest fileName).2) then "Medium"
      else "Low",
    analysis :=
      if 0 < (filenameBest fileName).2 then
        (filenameBest fileName).1 ++ " document identified from filename: \""
          ++ fileName
          ++ "\". Content extraction unsuccessful - manual review recommended for detailed analysis."
      else
        "Document \"" ++ fileName
          ++ "\" has been uploaded. Content extraction was unsuccessful - please review the original file for details." }

/-- Source lines 8-11: the failed-extraction predicate.  Note the marker
tests run on the raw (not lowercased) text. -/
def isFailedExtraction (textContent : String) : Bool :=
  strIncludes textContent "parsing failed"
    || strIncludes textContent "processing failed"
    || strIncludes textContent "minimal"
    || decide (textContent.length < 50)

/-- Source lines 1-36, `categorizeDocument`: the classification
orchestrator (the spec's `classify`). -/
def categorizeDocument (env : AIEnv) (textContent : String)
    (fileName : String) : ClassificationResult :=
  if isFailedExtraction textContent then
    analyzeFromFilename fileName
  else
    { category :=
        (validateAndOverrideCategories textContent fileName
          (getStructuredAIAnalysis env textContent fileName)).category,
      priority :=
        getRuleBasedPriority textContent
          (some (validateAndOverrideCategories textContent fileName
            (getStructuredAIAnalysis env textContent fileName)).priority),
      analysis :=
        (validateAndOverrideCategories textContent fileName
          (getStructuredAIAnalysis env textContent fileName)).analysis }

/-- Sample oracle: the AI call throws (network failure / timeout / missing
credentials). -/
def envFail : AIEnv := { outcome := none, jsonParse := fun _ => none }

/-- Sample input text: 67 characters, no failure marker, no category or
priority trigger keyword. -/
def textPlain : String :=
  "The quick brown fox jumps over the lazy dog by the quiet riverbank."

/-- Sample raw model response whose JSON object carries an out-of-enum
category. -/
def rawBanana : String :=
  "\x7b\"category\":\"Banana\",\"priority\":\"Low\",\"summary\":\"ok\"\x7d"

/-- Sample oracle: the model answers `rawBanana` and `JSON.parse` succeeds
on it exactly as the real parser would. -/
def envBanana : AIEnv :=
  { outcome := some rawBanana,
    jsonParse := fun s =>
      if s = rawBanana then
        some { category := some "Banana", priority := some "Low", summary := some "ok" }
      else none }

/-- Sample raw model response: a well-formed JSON object followed by text
containing further braces. -/
def rawTwoObjects : String := "\x7b\"a\":1\x7d tail \x7b\"b\":2\x7d"

/-- Sample raw model response used to stub the adapter for the end-to-end
scenario. -/
def rawStubInvoice : String :=
  "\x7b\"category\":\"Other\",\"priority\":\"Low\",\"summary\":\"An invoice document.\"\x7d"

/-- Sample oracle ("stubbed AI adapter"): the model answers
`rawStubInvoice` and `JSON.parse` succeeds on it exactly as the real
parser would. -/
def envStubInvoice : AIEnv :=
  { outcome := some rawStubInvoice,
    jsonParse := fun s =>
      if s = rawStubInvoice then
        some { category := some "Other", priority := some "Low",
               summary := some "An invoice document." }
      else none }

/-- The end-to-end scenario text fixed by the spec. -/
def invoiceText : String :=
  "URGENT: please process this invoice payment immediately for the Finance department."

/-- Sample text whose keyword counts tie at 2 between Engineering
(maintenance, repair) and Finance (budget, payment). -/
def tieText : String := "maintenance repair budget payment"

/-- Sample text of length at least 50 that contains an uppercase variant
of a failure marker but none of the lowercase markers. -/
def upperMarkerText : String :=
  "PARSING FAILED: UNABLE TO READ THE UPLOADED DOCUMENT CONTENT AT ALL"

/-- Sample text containing no priority trigger keyword. -/
def noTriggerText : String := "plain text file for weekly classing"

theorem overrideLoop_fst_mem (count : List String → Nat) :
    ∀ (l : List (String × List String)) (bc : String) (mm : Nat),
      (overrideLoop count l (bc, mm)).1 = bc ∨
        (overrideLoop count l (bc, mm)).1 ∈ l.map Prod.fst := by
  intro l
  induction l with
  | nil => exact fun bc mm => Or.inl rfl
  | cons p rest ih =>
      intro bc mm
      obtain ⟨category, keywords⟩ := p
      simp only [overrideLoop]
      split
      · rcases ih category (count keywords) with h | h
        · exact Or.inr (by simp [h])
        · exact Or.inr (by simp only [List.map_cons, List.mem_cons]; exact Or.inr h)
      · rcases ih bc mm with h | h
        · exact Or.inl h
        · exact Or.inr (by simp only [List.map_cons, List.mem_cons]; exact Or.inr h)

theorem overrideLoop_stay (count : List String → Nat) :
    ∀ (l : List (String × List String)) (bc : String) (mm : Nat),
      (∀ p ∈ l, count p.2 ≤ mm) → overrideLoop count l (bc, mm) = (bc, mm) := by
  intro l
  induction l with
  | nil => intro bc mm _; rfl
  | cons p rest ih =>
      intro bc mm h
      obtain ⟨category, keywords⟩ := p
      have hk : count keywords ≤ mm := h (category, keywords) (List.mem_cons_self _ _)
      simp only [overrideLoop]
      rw [if_neg]
      · exact ih bc mm (fun q hq => h q (List.mem_cons_of_mem _ hq))
      · rintro ⟨h1, _⟩; omega

theorem overrideLoop_below_threshold (count : List String → Nat) :
    ∀ (l : List (String × List String)) (bc : String) (mm : Nat),
      (∀ p ∈ l, count p.2 < 2) → overrideLoop count l (bc, mm) = (bc, mm) := by
  intro l
  induction l with
  | nil => intro bc mm _; rfl
  | cons p rest ih =>
      intro bc mm h
      obtain ⟨category, keywords⟩ := p
      have hk : count keywords < 2 := h (category, keywords) (List.mem_cons_self _ _)
      simp only [overrideLoop]
      rw [if_neg]
      · exact ih bc mm (fun q hq => h q (List.mem_cons_of_mem _ hq))
      · rintro ⟨_, h2⟩; omega

theorem overrideLoop_strict_winner (count : List String → Nat) (c : String)
    (kws : List String) (hv : 2 ≤ count kws) :
    ∀ (l : List (String × List String)) (bc : String) (mm : Nat),
      mm < count kws → (c, kws) ∈ l →
      (∀ p ∈ l, p ≠ (c, kws) → count p.2 < count kws) →
      overrideLoop count l (bc, mm) = (c, count kws) := by
  intro l
  induction l with
  | nil => intro bc mm _ hmem _; cases hmem
  | cons p rest ih =>
      intro bc mm hmm hmem hall
      obtain ⟨c2, kws2⟩ := p
      by_cases hp : (c2, kws2) = (c, kws)
      · injection hp with h1 h2
        subst h1; subst h2
        simp only [overrideLoop]
        rw [if_pos ⟨hmm, hv⟩]
        apply overrideLoop_stay
        intro q hq
        by_cases hq2 : q = (c2, kws2)
        · rw [hq2]
        · exact Nat.le_of_lt (hall q (List.mem_cons_of_mem _ hq) hq2)
      · have hlt : count kws2 < count kws :=
          hall (c2, kws2) (List.mem_cons_self _ _) hp
        have hmem2 : (c, kws) ∈ rest := by
          rcases List.mem_cons.mp hmem with h | h
          · exact absurd h.symm hp
          · exact h
        have hall2 : ∀ p ∈ rest, p ≠ (c, kws) → count p.2 < count kws :=
          fun q hq => hall q (List.mem_cons_of_mem _ hq)
        simp only [overrideLoop]
        split
        · exact ih c2 (count kws2) hlt hmem2 hall2
        · exact ih bc mm hmm hmem2 hall2

theorem filenameLoop_snd_le (count : List String → Nat) :
    ∀ (l : List (String × List String)) (bc : String) (mm : Nat),
      mm ≤ (filenameLoop count l (bc, mm)).2 := by
  intro l
  induction l with
  | nil => intro bc mm; exact Nat.le_refl mm
  | cons p rest ih =>
      intro bc mm
      obtain ⟨category, keywords⟩ := p
      simp only [filenameLoop]
      by_cases h : mm < count keywords
      · rw [if_pos h]
        exact Nat.le_trans (Nat.le_of_lt h) (ih category (count keywords))
      · rw [if_neg h]
        exact ih bc mm

theorem filenameLoop_fst_or_pos (count : List String → Nat) :
    ∀ (l : List (String × List String)) (bc : String) (mm : Nat),
      (filenameLoop count l (bc, mm)).1 = bc ∨ 0 < (filenameLoop count l (bc, mm)).2 := by
  intro l
  induction l with
  | nil => exact fun bc mm => Or.inl rfl
  | cons p rest ih =>
      intro bc mm
      obtain ⟨category, keywords⟩ := p
      simp only [filenameLoop]
      by_cases h : mm < count keywords
      · rw [if_pos h]
        refine Or.inr (Nat.lt_of_lt_of_le ?_ (filenameLoop_snd_le count rest category (count keywords)))
        omega
      · rw [if_neg h]
        exact ih bc mm

theorem filenameLoop_fst_mem (count : List String → Nat) :
    ∀ (l : List (String × List String)) (bc : String) (mm : Nat),
      (filenameLoop count l (bc, mm)).1 = bc ∨
        (filenameLoop count l (bc, mm)).1 ∈ l.map Prod.fst := by
  intro l
  induction l with
  | nil => exact fun bc mm => Or.inl rfl
  | cons p rest ih =>
      intro bc mm
      obtain ⟨category, keywords⟩ := p
      simp only [filenameLoop]
      by_cases h : mm < count keywords
      · rw [if_pos h]
        rcases ih category (count keywords) with h2 | h2
        · exact Or.inr (by simp [h2])
        · exact Or.inr (by simp only [List.map_cons, List.mem_cons]; exact Or.inr h2)
      · rw [if_neg h]
        rcases ih bc mm with h2 | h2
        · exact Or.inl h2
        · exact Or.inr (by simp only [List.map_cons, List.mem_cons]; exact Or.inr h2)

theorem firstIdxFrom_append (c : Char) {l1 : List Char} (l2 : List Char)
    (h : ∀ x ∈ l1, x ≠ c) :
    ∀ i, firstIdxFrom c (l1 ++ l2) i = firstIdxFrom c l2 (i + l1.length) := by
  induction l1 with
  | nil => intro i; simp [firstIdxFrom]
  | cons a t ih =>
      intro i
      have ha : a ≠ c := h a (List.mem_cons_self a t)
      have ih2 := ih (fun x hx => h x (List.mem_cons_of_mem a hx)) (i + 1)
      simp only [List.cons_append, firstIdxFrom, if_neg ha, List.length_cons,
        List.append_eq]
      rw [ih2]
      congr 1
      omega

theorem firstIdxFrom_cons_self (c : Char) (t : List Char) (i : Nat) :
    firstIdxFrom c (c :: t) i = some i := by
  simp [firstIdxFrom]

theorem lastIdxFrom_append (c : Char) (l1 l2 : List Char) :
    ∀ (i : Nat) (acc : Option Nat),
      lastIdxFrom c (l1 ++ l2) i acc =
        lastIdxFrom c l2 (i + l1.length) (lastIdxFrom c l1 i acc) := by
  induction l1 with
  | nil => intro i acc; simp [lastIdxFrom]
  | cons a t ih =>
      intro i acc
      simp only [List.cons_append, lastIdxFrom, List.length_cons, List.append_eq]
      rw [ih (i + 1)]
      have heq : i + 1 + t.length = i + (t.length + 1) := by omega
      rw [heq]

theorem lastIdxFrom_no_occ (c : Char) :
    ∀ (l : List Char), (∀ x ∈ l, x ≠ c) →
      ∀ (i : Nat) (acc : Option Nat), lastIdxFrom c l i acc = acc := by
  intro l
  induction l with
  | nil => intro _ i acc; rfl
  | cons a t ih =>
      intro h i acc
      have ha : a ≠ c := h a (List.mem_cons_self a t)
      simp only [lastIdxFrom, if_neg ha]
      exact ih (fun x hx => h x (List.mem_cons_of_mem a hx)) (i + 1) acc

theorem strData_append (s t : String) : (s ++ t).data = s.data ++ t.data := rfl

theorem strExt {s t : String} (h : s.data = t.data) : s = t := by
  cases s; cases t; exact congrArg String.mk h

/-- Claim C7 (amended): the AI Classifier Adapter extracts the substring
running from the first `\x7b` of the model's response to the last `\x7d`
(the regex is greedy), not the first balanced object.  In particular,
when the response is a single flat JSON object surrounded by brace-free
text, exactly that object is extracted; trailing text containing further
braces extends the span instead (see the counterexample). -/
theorem json_span_match_flat (pre mid post : String)
    (hpre : ∀ ch ∈ pre.data, ch ≠ '{' ∧ ch ≠ '}')
    (hmid : ∀ ch ∈ mid.data, ch ≠ '{' ∧ ch ≠ '}')
    (hpost : ∀ ch ∈ post.data, ch ≠ '{' ∧ ch ≠ '}') :
    jsonSpanMatch (pre ++ "\x7b" ++ mid ++ "\x7d" ++ post) =
      some ("\x7b" ++ mid ++ "\x7d") := by
  have hb : ("\x7b" : String).data = ['{'] := rfl
  have hc : ("\x7d" : String).data = ['}'] := rfl
  have hdata : (pre ++ "\x7b" ++ mid ++ "\x7d" ++ post).data =
      pre.data ++ ('{' :: (mid.data ++ ('}' :: post.data))) := by
    simp [strData_append, hb, hc]
  have hfirst : firstIdxFrom '{' (pre.data ++ ('{' :: (mid.data ++ ('}' :: post.data)))) 0 =
      some pre.data.length := by
    rw [firstIdxFrom_append '{' _ (fun x hx => (hpre x hx).1) 0,
      firstIdxFrom_cons_self]
    simp
  have hlshape : pre.data ++ ('{' :: (mid.data ++ ('}' :: post.data))) =
      (pre.data ++ ('{' :: mid.data)) ++ ('}' :: post.data) := by
    simp
  have hnoClose : ∀ x ∈ pre.data ++ ('{' :: mid.data), x ≠ '}' := by
    intro x hx
    rcases List.mem_append.mp hx with h | h
    · exact (hpre x h).2
    · rcases List.mem_cons.mp h with h | h
      · rw [h]; decide
      · exact (hmid x h).2
  have hlast : lastIdxFrom '}' (pre.data ++ ('{' :: (mid.data ++ ('}' :: post.data)))) 0 none =
      some (pre.data.length + 1 + mid.data.length) := by
    rw [hlshape, lastIdxFrom_append,
      lastIdxFrom_no_occ '}' (pre.data ++ ('{' :: mid.data)) hnoClose 0 none]
    simp only [lastIdxFrom, reduceIte]
    rw [lastIdxFrom_no_occ '}' post.data (fun x hx => (hpost x hx).2)]
    congr 1
    simp only [List.length_append, List.length_cons]
    omega
  have hiLt : pre.data.length < pre.data.length + 1 + mid.data.length := by omega
  simp only [jsonSpanMatch, hdata, hfirst, hlast]
  rw [if_pos hiLt]
  congr 1
  apply strExt
  have hdrop : (pre.data ++ ('{' :: (mid.data ++ ('}' :: post.data)))).drop pre.data.length =
      '{' :: (mid.data ++ ('}' :: post.data)) :=
    List.drop_left _ _
  have harith : pre.data.length + 1 + mid.data.length + 1 - pre.data.length =
      mid.data.length + 2 := by omega
  rw [hdrop, harith]
  have h2 : mid.data ++ ('}' :: post.data) = (mid.data ++ ['}']) ++ post.data := by
    simp
  have hlen : (mid.data ++ ['}']).length = mid.data.length + 1 := by simp
  have htake : ('{' :: (mid.data ++ ('}' :: post.data))).take (mid.data.length + 2) =
      '{' :: ((mid.data ++ ('}' :: post.data)).take (mid.data.length + 1)) := rfl
  rw [htake, h2, ← hlen, List.take_left]
  simp [strData_append, hb, hc]

theorem any_eq_false_of_all (p : String → Bool) (l : List String)
    (h : ∀ k ∈ l, p k = false) : l.any p = false := by
  cases hb : l.any p
  · rfl
  · obtain ⟨k, hk, hpk⟩ := List.any_eq_true.mp hb
    rw [h k hk] at hpk
    cases hpk

/-- Claim C2 (confirmed): whenever the text is shorter than 50 characters
or contains one of the failure markers, `categorizeDocument` returns
exactly `analyzeFromFilename fileName`, for every AI oracle — so the AI
Classifier Adapter is never consulted on this branch. -/
theorem categorize_degraded_routing (env : AIEnv) (textContent fileName : String)
    (h : textContent.length < 50 ∨
      strIncludes textContent "parsing failed" = true ∨
      strIncludes textContent "processing failed" = true ∨
      strIncludes textContent "minimal" = true) :
    categorizeDocument env textContent fileName = analyzeFromFilename fileName := by
  have hfe : isFailedExtraction textContent = true := by
    unfold isFailedExtraction
    rcases h with h | h | h | h <;> simp [h]
  simp [categorizeDocument, hfe]

theorem categorize_degraded_routing_witness :
    ("short note".length < 50 ∨
      strIncludes "short note" "parsing failed" = true ∨
      strIncludes "short note" "processing failed" = true ∨
      strIncludes "short note" "minimal" = true) ∧
    categorizeDocument envFail "short note" "budget.pdf" = analyzeFromFilename "budget.pdf" :=
  ⟨Or.inl (by decide),
    categorize_degraded_routing envFail "short note" "budget.pdf" (Or.inl (by decide))⟩

/-- Claim C9 (confirmed): failure-marker detection runs on the raw text,
case-sensitively; text of length at least 50 containing only an uppercase
variant such as "PARSING FAILED" (and none of the lowercase markers)
takes the AI-plus-validator path, not the filename-only path. -/
theorem categorize_markers_case_sensitive (env : AIEnv) (textContent fileName : String)
    (_hupper : strIncludes textContent "PARSING FAILED" = true)
    (h1 : strIncludes textContent "parsing failed" = false)
    (h2 : strIncludes textContent "processing failed" = false)
    (h3 : strIncludes textContent "minimal" = false)
    (hlen : 50 ≤ textContent.length) :
    categorizeDocument env textContent fileName =
      { category := (validateAndOverrideCategories textContent fileName
            (getStructuredAIAnalysis env textContent fileName)).category,
        priority := getRuleBasedPriority textContent
            (some (validateAndOverrideCategories textContent fileName
              (getStructuredAIAnalysis env textContent fileName)).priority),
        analysis := (validateAndOverrideCategories textContent fileName
            (getStructuredAIAnalysis env textContent fileName)).analysis } := by
  have hfe : isFailedExtraction textContent = false := by
    unfold isFailedExtraction
    have hnl : ¬ (textContent.length < 50) := Nat.not_lt.mpr hlen
    simp [h1, h2, h3, hnl]
  simp [categorizeDocument, hfe]

theorem categorize_markers_case_sensitive_witness :
    strIncludes upperMarkerText "PARSING FAILED" = true ∧
    strIncludes upperMarkerText "parsing failed" = false ∧
    50 ≤ upperMarkerText.length ∧
    categorizeDocument envFail upperMarkerText "scan.pdf" =
      { category := (validateAndOverrideCategories upperMarkerText "scan.pdf"
            (getStructuredAIAnalysis envFail upperMarkerText "scan.pdf")).category,
        priority := getRuleBasedPriority upperMarkerText
            (some (validateAndOverrideCategories upperMarkerText "scan.pdf"
              (getStructuredAIAnalysis envFail upperMarkerText "scan.pdf")).priority),
        analysis := (validateAndOverrideCategories upperMarkerText "scan.pdf"
            (getStructuredAIAnalysis envFail upperMarkerText "scan.pdf")).analysis } :=
  ⟨by decide, by decide, by decide,
    categorize_markers_case_sensitive envFail upperMarkerText "scan.pdf"
      (by decide) (by decide) (by decide) (by decide) (by decide)⟩

/-- Claim C8 (confirmed): on the end-to-end scenario text with the stubbed
AI adapter returning (Other, Low, "An invoice document."), the pipeline
returns category "Finance", priority "High", analysis "An invoice
document.". -/
theorem categorize_end_to_end_invoice :
    categorizeDocument envStubInvoice invoiceText "inv_2024.pdf" =
      { category := "Finance", priority := "High",
        analysis := "An invoice document." } := by
  decide

/-- Claim C7 (counterexample): on a response holding a well-formed JSON
object followed by text with further braces, the extracted span is the
whole greedy stretch to the final closing brace, not the first balanced
object the claim describes. -/
theorem json_span_greedy_cex :
    jsonSpanMatch rawTwoObjects = some rawTwoObjects ∧
    specFirstBalancedSpan rawTwoObjects = some "\x7b\"a\":1\x7d" ∧
    jsonSpanMatch rawTwoObjects ≠ specFirstBalancedSpan rawTwoObjects := by
  decide

theorem json_span_match_flat_witness :
    jsonSpanMatch ("Sure: " ++ "\x7b" ++ "\"category\": \"HR\", \"priority\": \"Low\"" ++ "\x7d" ++ " Done.") =
      some ("\x7b" ++ "\"category\": \"HR\", \"priority\": \"Low\"" ++ "\x7d") :=
  json_span_match_flat "Sure: " "\"category\": \"HR\", \"priority\": \"Low\"" " Done."
    (by decide) (by decide) (by decide)

/-- Claim C6 (confirmed): on any failure of the AI call — thrown call, no
brace span in the response, or a `JSON.parse` exception — the adapter
returns exactly the fixed fallback triple (Other, Low, generic word-count
sentence), and on the non-degraded path `categorizeDocument` then returns
the keyword-rule category and priority with the generic word-count
sentence as its analysis. -/
theorem ai_failure_fallback (env : AIEnv) (textContent fileName : String)
    (hfail : env.outcome = none ∨
      ∃ raw, env.outcome = some raw ∧
        (jsonSpanMatch raw = none ∨
          ∃ m, jsonSpanMatch raw = some m ∧ env.jsonParse m = none)) :
    getStructuredAIAnalysis env textContent fileName = aiFallbackResult textContent ∧
    (isFailedExtraction textContent = false →
      categorizeDocument env textContent fileName =
        { category := (validateAndOverrideCategories textContent fileName
              (aiFallbackResult textContent)).category,
          priority := getRuleBasedPriority textContent (some "Low"),
          analysis := genericSummary textContent }) := by
  have h1 : getStructuredAIAnalysis env textContent fileName = aiFallbackResult textContent := by
    rcases hfail with h | ⟨raw, hraw, hin⟩
    · simp [getStructuredAIAnalysis, h]
    · rcases hin with hnone | ⟨m, hm, hp⟩
      · simp [getStructuredAIAnalysis, hraw, hnone]
      · simp [getStructuredAIAnalysis, hraw, hm, hp]
  refine ⟨h1, fun hfe => ?_⟩
  simp [categorizeDocument, hfe, h1, validateAndOverrideCategories, aiFallbackResult]

theorem ai_failure_fallback_witness :
    envFail.outcome = none ∧
    isFailedExtraction textPlain = false ∧
    getStructuredAIAnalysis envFail textPlain "doc.txt" = aiFallbackResult textPlain ∧
    categorizeDocument envFail textPlain "doc.txt" =
      { category := (validateAndOverrideCategories textPlain "doc.txt"
            (aiFallbackResult textPlain)).category,
        priority := getRuleBasedPriority textPlain (some "Low"),
        analysis := genericSummary textPlain } := by
  have h := ai_failure_fallback envFail textPlain "doc.txt" (Or.inl rfl)
  exact ⟨rfl, by decide, h.1, h.2 (by decide)⟩

/-- Claim C1 (counterexample): a syntactically valid model response whose
JSON object carries the out-of-enum category "Banana" flows through the
adapter and the validator unchanged, so `categorizeDocument` returns a
category outside the eight-value enumeration. -/
theorem categorize_out_of_enum_cex :
    (categorizeDocument envBanana textPlain "doc.txt").category = "Banana" ∧
    "Banana" ∉ categoryLabels := by
  constructor
  · decide
  · decide

/-- Claim C1 (amended): `categorizeDocument` is total (the embedding is a
function, mirroring that the source never throws) and its category and
priority lie in the closed enumerations whenever the AI adapter's
returned category and priority do — which holds on every fallback path;
a malformed AI response carrying non-empty out-of-enum strings is passed
through verbatim (see the counterexample). -/
theorem categorize_enum_closed (env : AIEnv) (textContent fileName : String)
    (hc : (getStructuredAIAnalysis env textContent fileName).category ∈ categoryLabels)
    (hp : (getStructuredAIAnalysis env textContent fileName).priority ∈ priorityLabels) :
    (categorizeDocument env textContent fileName).category ∈ categoryLabels ∧
    (categorizeDocument env textContent fileName).priority ∈ priorityLabels := by
  by_cases hfe : isFailedExtraction textContent = true
  · have hroute : categorizeDocument env textContent fileName = analyzeFromFilename fileName := by
      simp [categorizeDocument, hfe]
    rw [hroute]
    constructor
    · show (filenameBest fileName).1 ∈ categoryLabels
      have hfb : filenameBest fileName =
          filenameLoop (filenameCount (strToLower fileName)) filenameCategories ("Other", 0) := rfl
      rw [hfb]
      rcases filenameLoop_fst_mem (filenameCount (strToLower fileName))
          filenameCategories "Other" 0 with h | h
      · rw [h]; decide
      · have hsub : ∀ x ∈ filenameCategories.map Prod.fst, x ∈ categoryLabels := by decide
        exact hsub _ h
    · by_cases h1 : (filenameHighPriorityKeywords.any
          fun kw => strIncludes (strToLower fileName) kw) = true
      · simp [analyzeFromFilename, h1]
        decide
      · have h1f : (filenameHighPriorityKeywords.any
            fun kw => strIncludes (strToLower fileName) kw) = false := by
          revert h1
          cases filenameHighPriorityKeywords.any fun kw => strIncludes (strToLower fileName) kw <;>
            simp
        by_cases h2 : ((filenameMediumPriorityKeywords.any
            fun kw => strIncludes (strToLower fileName) kw)
            || decide (0 < (filenameBest fileName).2)) = true
        · simp [analyzeFromFilename, h1f, h2]
          decide
        · have h2f : ((filenameMediumPriorityKeywords.any
              fun kw => strIncludes (strToLower fileName) kw)
              || decide (0 < (filenameBest fileName).2)) = false := by
            revert h2
            cases (filenameMediumPriorityKeywords.any
              fun kw => strIncludes (strToLower fileName) kw)
              || decide (0 < (filenameBest fileName).2) <;> simp
          simp [analyzeFromFilename, h1f, h2f]
          decide
  · have hfe2 : isFailedExtraction textContent = false := by
      revert hfe
      cases isFailedExtraction textContent <;> simp
    have hroute : categorizeDocument env textContent fileName =
        { category := (validateAndOverrideCategories textContent fileName
              (getStructuredAIAnalysis env textContent fileName)).category,
          priority := getRuleBasedPriority textContent
              (some (validateAndOverrideCategories textContent fileName
                (getStructuredAIAnalysis env textContent fileName)).priority),
          analysis := (validateAndOverrideCategories textContent fileName
              (getStructuredAIAnalysis env textContent fileName)).analysis } := by
      simp [categorizeDocument, hfe2]
    rw [hroute]
    constructor
    · show (overrideLoop (validatorCount textContent fileName) categoryKeywords
          ((getStructuredAIAnalysis env textContent fileName).category, 0)).1 ∈ categoryLabels
      rcases overrideLoop_fst_mem (validatorCount textContent fileName) categoryKeywords
          (getStructuredAIAnalysis env textContent fileName).category 0 with h | h
      · rw [h]; exact hc
      · have hsub : ∀ x ∈ categoryKeywords.map Prod.fst, x ∈ categoryLabels := by decide
        exact hsub _ h
    · show getRuleBasedPriority textContent
          (some (getStructuredAIAnalysis env textContent fileName).priority) ∈ priorityLabels
      by_cases hH : (highPriorityKeywords.any
          fun keyword => strIncludes (strToLower textContent) keyword) = true
      · simp [getRuleBasedPriority, hH]
        decide
      · have hHf : (highPriorityKeywords.any
            fun keyword => strIncludes (strToLower textContent) keyword) = false := by
          revert hH
          cases highPriorityKeywords.any fun keyword => strIncludes (strToLower textContent) keyword <;>
            simp
        by_cases hM : (mediumPriorityKeywords.any
            fun keyword => strIncludes (strToLower textContent) keyword) = true
        · simp [getRuleBasedPriority, hHf, hM]
          decide
        · have hMf : (mediumPriorityKeywords.any
              fun keyword => strIncludes (strToLower textContent) keyword) = false := by
            revert hM
            cases mediumPriorityKeywords.any fun keyword => strIncludes (strToLower textContent) keyword <;>
              simp
          by_cases hemp : (getStructuredAIAnalysis env textContent fileName).priority = ""
          · simp [getRuleBasedPriority, hHf, hMf, jsOr, hemp]
            decide
          · simp only [getRuleBasedPriority, hHf, hMf, jsOr]
            simp only [Bool.false_eq_true, if_false, if_neg hemp]
            exact hp

theorem categorize_enum_closed_witness :
    (getStructuredAIAnalysis envFail textPlain "doc.txt").category ∈ categoryLabels ∧
    (getStructuredAIAnalysis envFail textPlain "doc.txt").priority ∈ priorityLabels ∧
    ((categorizeDocument envFail textPlain "doc.txt").category ∈ categoryLabels ∧
      (categorizeDocument envFail textPlain "doc.txt").priority ∈ priorityLabels) :=
  ⟨by decide, by decide,
    categorize_enum_closed envFail textPlain "doc.txt" (by decide) (by decide)⟩

/-- Claim C10 (confirmed): every filename-only result whose category is
not "Other" has priority "High" or "Medium" (equivalently, a "Low"
priority filename result always carries category "Other"). -/
theorem analyze_filename_category_priority (fileName : String)
    (h : (analyzeFromFilename fileName).category ≠ "Other") :
    (analyzeFromFilename fileName).priority = "High" ∨
    (analyzeFromFilename fileName).priority = "Medium" := by
  have hne : (filenameBest fileName).1 ≠ "Other" := h
  have hpos : 0 < (filenameBest fileName).2 := by
    have hfb : filenameBest fileName =
        filenameLoop (filenameCount (strToLower fileName)) filenameCategories ("Other", 0) := rfl
    rcases filenameLoop_fst_or_pos (filenameCount (strToLower fileName))
        filenameCategories "Other" 0 with h2 | h2
    · rw [hfb] at hne; exact absurd h2 hne
    · rw [hfb]; exact h2
  by_cases hH : (filenameHighPriorityKeywords.any
      fun kw => strIncludes (strToLower fileName) kw) = true
  · left; simp [analyzeFromFilename, hH]
  · right
    have hHf : (filenameHighPriorityKeywords.any
        fun kw => strIncludes (strToLower fileName) kw) = false := by
      revert hH
      cases filenameHighPriorityKeywords.any fun kw => strIncludes (strToLower fileName) kw <;> simp
    have hd : decide (0 < (filenameBest fileName).2) = true := by simp [hpos]
    simp [analyzeFromFilename, hHf, hd]

theorem analyze_filename_category_priority_witness :
    (analyzeFromFilename "budget.pdf").category ≠ "Other" ∧
    ((analyzeFromFilename "budget.pdf").priority = "High" ∨
      (analyzeFromFilename "budget.pdf").priority = "Medium") :=
  ⟨by decide, analyze_filename_category_priority "budget.pdf" (by decide)⟩

/-- Claim C3 (counterexample): on `tieText`, Engineering and Finance tie
at 2 distinct keyword matches each; the claim predicts the AI category
"HR" is left untouched on a tie, but the validator overrides it with
"Engineering", the first tied category in iteration order. -/
theorem validate_tie_override_cex :
    validatorCount tieText "" ["maintenance", "repair", "technical", "equipment",
      "infrastructure", "construction", "mechanical", "electrical", "system"] = 2 ∧
    validatorCount tieText "" ["budget", "payment", "invoice", "expense", "cost",
      "revenue", "financial", "accounting"] = 2 ∧
    (validateAndOverrideCategories tieText ""
      { category := "HR", priority := "Low", summary := "s" }).category = "Engineering" := by
  refine ⟨by decide, by decide, by decide⟩

/-- Claim C3 (amended): the validator keeps the AI's category whenever
every category's distinct-keyword match count is below 2, and replaces it
with category `c` whenever `c`'s count is at least 2 and strictly greater
than every other category's count; on a tie at the top with count at
least 2 the first category in the table's iteration order wins (see the
counterexample), rather than the AI's category surviving. -/
theorem validate_override_rules (textContent fileName : String) (aiResult : AIResult) :
    ((∀ p ∈ categoryKeywords, validatorCount textContent fileName p.2 < 2) →
      (validateAndOverrideCategories textContent fileName aiResult).category =
        aiResult.category) ∧
    (∀ c kws, (c, kws) ∈ categoryKeywords →
      2 ≤ validatorCount textContent fileName kws →
      (∀ p ∈ categoryKeywords, p ≠ (c, kws) →
        validatorCount textContent fileName p.2 < validatorCount textContent fileName kws) →
      (validateAndOverrideCategories textContent fileName aiResult).category = c) := by
  constructor
  · intro h
    show (overrideLoop (validatorCount textContent fileName) categoryKeywords
        (aiResult.category, 0)).1 = aiResult.category
    rw [overrideLoop_below_threshold (validatorCount textContent fileName)
      categoryKeywords aiResult.category 0 h]
  · intro c kws hmem hv hall
    show (overrideLoop (validatorCount textContent fileName) categoryKeywords
        (aiResult.category, 0)).1 = c
    rw [overrideLoop_strict_winner (validatorCount textContent fileName) c kws hv
      categoryKeywords aiResult.category 0 (by omega) hmem hall]

theorem validate_override_rules_witness :
    2 ≤ validatorCount "invoice payment due" "" ["budget", "payment", "invoice",
      "expense", "cost", "revenue", "financial", "accounting"] ∧
    (validateAndOverrideCategories "invoice payment due" ""
      { category := "HR", priority := "Low", summary := "s" }).category = "Finance" :=
  ⟨by decide,
    (validate_override_rules "invoice payment due" ""
        { category := "HR", priority := "Low", summary := "s" }).2 "Finance"
      ["budget", "payment", "invoice", "expense", "cost", "revenue", "financial",
        "accounting"]
      (by decide) (by decide) (by decide)⟩

/-- Claim C4 (counterexample): with no trigger keyword in the text, the
code returns the AI-suggested priority verbatim even when it is not one
of the three enumeration values — the claim says only a present *and
valid* suggestion is used. -/
theorem rule_priority_passthrough_cex :
    getRuleBasedPriority noTriggerText (some "Banana") = "Banana" ∧
    "Banana" ∉ priorityLabels := by
  refine ⟨by decide, by decide⟩

/-- Claim C4 (amended): the recomputed priority is "High" when the
lowercased text contains a high-tier trigger, else "Medium" when it
contains a medium-tier trigger, else the AI's suggestion passed through
verbatim whenever it is present and non-empty (with no enum validation),
and "Low" when it is absent or empty. -/
theorem rule_priority_precedence (textContent : String) (aiPriority : Option String) :
    ((∃ k ∈ highPriorityKeywords, strIncludes (strToLower textContent) k = true) →
      getRuleBasedPriority textContent aiPriority = "High") ∧
    ((∀ k ∈ highPriorityKeywords, strIncludes (strToLower textContent) k = false) →
      (∃ k ∈ mediumPriorityKeywords, strIncludes (strToLower textContent) k = true) →
      getRuleBasedPriority textContent aiPriority = "Medium") ∧
    ((∀ k ∈ highPriorityKeywords, strIncludes (strToLower textContent) k = false) →
      (∀ k ∈ mediumPriorityKeywords, strIncludes (strToLower textContent) k = false) →
      ((aiPriority = none ∨ aiPriority = some "") →
        getRuleBasedPriority textContent aiPriority = "Low") ∧
      (∀ s, aiPriority = some s → s ≠ "" →
        getRuleBasedPriority textContent aiPriority = s)) := by
  refine ⟨?_, ?_, ?_⟩
  · rintro ⟨k, hk, hinc⟩
    have hH : (highPriorityKeywords.any
        fun keyword => strIncludes (strToLower textContent) keyword) = true :=
      List.any_eq_true.mpr ⟨k, hk, hinc⟩
    simp [getRuleBasedPriority, hH]
  · rintro hno ⟨k, hk, hinc⟩
    have hHf : (highPriorityKeywords.any
        fun keyword => strIncludes (strToLower textContent) keyword) = false :=
      any_eq_false_of_all _ _ hno
    have hM : (mediumPriorityKeywords.any
        fun keyword => strIncludes (strToLower textContent) keyword) = true :=
      List.any_eq_true.mpr ⟨k, hk, hinc⟩
    simp [getRuleBasedPriority, hHf, hM]
  · intro hno hnom
    have hHf : (highPriorityKeywords.any
        fun keyword => strIncludes (strToLower textContent) keyword) = false :=
      any_eq_false_of_all _ _ hno
    have hMf : (mediumPriorityKeywords.any
        fun keyword => strIncludes (strToLower textContent) keyword) = false :=
      any_eq_false_of_all _ _ hnom
    constructor
    · rintro (h | h) <;> simp [getRuleBasedPriority, hHf, hMf, jsOr, h]
    · intro s hs hne
      simp [getRuleBasedPriority, hHf, hMf, jsOr, hs, hne]

theorem rule_priority_precedence_witness :
    getRuleBasedPriority "urgent repairs needed" (some "Low") = "High" :=
  (rule_priority_precedence "urgent repairs needed" (some "Low")).1 (by decide)

/-- Claim C5 (counterexample): non-empty out-of-enum category and priority
strings from the parsed JSON are passed straight through (the claim says
they are replaced by "Other"/"Low"), and the absent-summary default is
the fixed sentence "Document processed for categorization.", not the
word-count sentence the claim describes. -/
theorem parsed_defaults_cex :
    parsedFieldDefaults
        { category := some "Banana", priority := some "Critical",
          summary := some "hello" } =
      { category := "Banana", priority := "Critical", summary := "hello" } ∧
    "Banana" ∉ categoryLabels ∧
    "Critical" ∉ priorityLabels ∧
    (parsedFieldDefaults { category := none, priority := none, summary := none }).summary =
      "Document processed for categorization." ∧
    (parsedFieldDefaults { category := none, priority := none, summary := none }).summary ≠
      genericSummary "alpha beta gamma" := by
  refine ⟨by decide, by decide, by decide, by decide, by decide⟩

/-- Claim C5 (amended): absent or empty fields of the parsed JSON object
are replaced by the defaults "Other", "Low" and the fixed sentence
"Document processed for categorization."; any non-empty field value —
including strings outside the closed enumerations — is passed through
verbatim. -/
theorem parsed_field_defaults_spec (p : ParsedJson) :
    ((p.category = none ∨ p.category = some "") →
      (parsedFieldDefaults p).category = "Other") ∧
    (∀ s, p.category = some s → s ≠ "" → (parsedFieldDefaults p).category = s) ∧
    ((p.priority = none ∨ p.priority = some "") →
      (parsedFieldDefaults p).priority = "Low") ∧
    (∀ s, p.priority = some s → s ≠ "" → (parsedFieldDefaults p).priority = s) ∧
    ((p.summary = none ∨ p.summary = some "") →
      (parsedFieldDefaults p).summary = "Document processed for categorization.") ∧
    (∀ s, p.summary = some s → s ≠ "" → (parsedFieldDefaults p).summary = s) := by
  refine ⟨?_, ?_, ?_, ?_, ?_, ?_⟩
  · rintro (h | h) <;> simp [parsedFieldDefaults, jsOr, h]
  · intro s hs hne
    simp [parsedFieldDefaults, jsOr, hs, hne]
  · rintro (h | h) <;> simp [parsedFieldDefaults, jsOr, h]
  · intro s hs hne
    simp [parsedFieldDefaults, jsOr, hs, hne]
  · rintro (h | h) <;> simp [parsedFieldDefaults, jsOr, h]
  · intro s hs hne
    simp [parsedFieldDefaults, jsOr, hs, hne]

theorem parsed_field_defaults_spec_witness :
    (parsedFieldDefaults
        { category := none, priority := some "High", summary := some "ok" }).category =
      "Other" ∧
    (parsedFieldDefaults
        { category := none, priority := some "High", summary := some "ok" }).priority =
      "High" :=
  ⟨(parsed_field_defaults_spec
        { category := none, priority := some "High", summary := some "ok" }).1
      (Or.inl rfl),
    (parsed_field_defaults_spec
        { category := none, priority := some "High", summary := some "ok" }).2.2.2.1
      "High" rfl (by decide)⟩
